import Mathlib

/-
Verification of mac2mqtt (src/mac2mqtt.go): a shallow embedding of the
command validation and dispatch, the media stream merge, the CPU usage
computation, the MQTT connect retry cycle, the telemetry tick gating and
the user activity monitor, with theorems checking the specification of
the repository against these definitions.

Conventions: Go strconv functions are modelled by name (goParseBool,
goAtoi); machine integers are Nat or Int with explicit mod 2 to the 64
where Go uses uint64 arithmetic; float64 values are modelled as rationals;
fallible Go functions returning (T, error) are modelled as Option T, with
none standing for a non-nil error. A command handler returns the pair
(handled, capability call): the second component is none exactly when no
Device Capability call is made.
-/

/-! ## Go standard library models -/

/-- Model of Go strconv.ParseBool: accepts exactly the twelve literals of
its switch statement and nothing else. -/
def goParseBool (s : String) : Option Bool :=
  if s = "1" ∨ s = "t" ∨ s = "T" ∨ s = "true" ∨ s = "TRUE" ∨ s = "True" then some true
  else if s = "0" ∨ s = "f" ∨ s = "F" ∨ s = "false" ∨ s = "FALSE" ∨ s = "False" then some false
  else none

/-- The payload strings goParseBool accepts. -/
def goBoolTokens : List String :=
  ["1", "t", "T", "true", "TRUE", "True", "0", "f", "F", "false", "FALSE", "False"]

/-- Value of a run of decimal digit characters, none on a non-digit. -/
def digitsValAux (acc : Nat) : List Char → Option Nat
  | [] => some acc
  | c :: cs =>
    if '0' ≤ c ∧ c ≤ '9' then digitsValAux (10 * acc + (c.toNat - '0'.toNat)) cs
    else none

/-- Value of a non-empty all-digit character list, none otherwise. -/
def digitsVal (l : List Char) : Option Nat :=
  match l with
  | [] => none
  | _ :: _ => digitsValAux 0 l

/-- The mathematical decimal-integer reading of a string: an optional sign
followed by one or more digits. This is the specification-side notion of
"the payload parses as an integer", with no machine-width bound. -/
def specIntegerVal (s : String) : Option Int :=
  match s.data with
  | [] => none
  | '+' :: rest => Option.map (fun n => (n : Int)) (digitsVal rest)
  | '-' :: rest => Option.map (fun n => -(n : Int)) (digitsVal rest)
  | l => Option.map (fun n => (n : Int)) (digitsVal l)

/-- Model of Go strconv.Atoi: the decimal reading, rejected with ErrRange
(hence a non-nil error) outside the signed 64-bit integer range. -/
def goAtoi (s : String) : Option Int :=
  match specIntegerVal s with
  | none => none
  | some v => if v < -(2 ^ 63) ∨ 2 ^ 63 - 1 < v then none else some v

/-! ## Constants of the application (src/mac2mqtt.go lines 41 to 50) -/

def MinVolume : Int := 0

def MaxVolume : Int := 100

def MinBrightness : Int := 0

def MaxBrightness : Int := 100

def MaxRetryAttempts : Nat := 1

/-! ## Input validation (src/mac2mqtt.go lines 2358 to 2416) -/

/-- validateVolumeInput: strconv.Atoi then the range check against
MinVolume and MaxVolume; some volume on acceptance, none on rejection. -/
def validateVolumeInput (payload : String) : Option Int :=
  match goAtoi payload with
  | none => none
  | some volume =>
    if volume < MinVolume ∨ MaxVolume < volume then none else some volume

/-- validateMuteInput: strconv.ParseBool on the payload. -/
def validateMuteInput (payload : String) : Option Bool :=
  goParseBool payload

/-- validateBrightnessInput: strconv.Atoi then the range check against
MinBrightness and MaxBrightness. -/
def validateBrightnessInput (payload : String) : Option Int :=
  match goAtoi payload with
  | none => none
  | some brightness =>
    if brightness < MinBrightness ∨ MaxBrightness < brightness then none else some brightness

/-- The character class of the shortcut validation regex, a-zA-Z0-9\s-_
where Go regexp \s is tab, newline, form feed, carriage return and space. -/
def goWhitespaceChar (c : Char) : Bool :=
  (c == '\t') || (c == '\n') || (c == Char.ofNat 12) || (c == '\r') || (c == ' ')

/-- One character of the shortcut regex character class. -/
def shortcutChar (c : Char) : Bool :=
  decide ('a' ≤ c ∧ c ≤ 'z') || decide ('A' ≤ c ∧ c ≤ 'Z') ||
    decide ('0' ≤ c ∧ c ≤ '9') || goWhitespaceChar c || (c == '-') || (c == '_')

/-- validateShortcutInput: reject the empty payload, then require every
character to match the anchored regex class; true means accepted. -/
def validateShortcutInput (payload : String) : Bool :=
  if payload = "" then false
  else payload.data.all shortcutChar

/-- validateKeepAwakeInput: strconv.ParseBool on the payload. -/
def validateKeepAwakeInput (payload : String) : Option Bool :=
  goParseBool payload

/-! ## Command handlers (src/mac2mqtt.go lines 1321 to 1450)

Each handler returns (handled, call): handled is the Go boolean return
value, call records the Device Capability invocation made, none if none. -/

/-- handleVolumeCommand: on the volume command topic, validate and call
setVolume with the accepted value. -/
def handleVolumeCommand (pfx topic payload : String) : Bool × Option Int :=
  if topic = pfx ++ "/command/volume" then
    match validateVolumeInput payload with
    | none => (true, none)
    | some v => (true, some v)
  else (false, none)

/-- handleMuteCommand: on the mute command topic, validate and call
setMute with the accepted boolean. -/
def handleMuteCommand (pfx topic payload : String) : Bool × Option Bool :=
  if topic = pfx ++ "/command/mute" then
    match validateMuteInput payload with
    | none => (true, none)
    | some b => (true, some b)
  else (false, none)

/-- handleKeepAwakeCommand: on the keepawake command topic, validate and
call commandKeepAwake on true, commandAllowSleep on false. -/
def handleKeepAwakeCommand (pfx topic payload : String) : Bool × Option Bool :=
  if topic = pfx ++ "/command/keepawake" then
    match validateKeepAwakeInput payload with
    | none => (true, none)
    | some b => (true, some b)
  else (false, none)

/-- handleShortcutCommand: on the runshortcut command topic, validate and
call commandRunShortcut with the payload as shortcut name. -/
def handleShortcutCommand (pfx topic payload : String) : Bool × Option String :=
  if topic = pfx ++ "/command/runshortcut" then
    (if validateShortcutInput payload then (true, some payload) else (true, none))
  else (false, none)

/-- The loop over app.displays of handleDisplayBrightnessCommand: first
display whose per-display brightness topic matches consumes the message. -/
def handleDisplayBrightnessLoop (pfx : String) (displays : List String)
    (topic payload : String) : Bool × Option (String × Int) :=
  match displays with
  | [] => (false, none)
  | d :: rest =>
    if topic = pfx ++ "/command/display_" ++ d ++ "_brightness" then
      match validateBrightnessInput payload with
      | none => (true, none)
      | some b => (true, some (d, b))
    else handleDisplayBrightnessLoop pfx rest topic payload

/-- handleDisplayBrightnessCommand: with no displays every message is
consumed with no capability call; otherwise the display loop runs. -/
def handleDisplayBrightnessCommand (pfx : String) (displays : List String)
    (topic payload : String) : Bool × Option (String × Int) :=
  match displays with
  | [] => (true, none)
  | _ :: _ => handleDisplayBrightnessLoop pfx displays topic payload

/-! ## Theorems: input validation claims -/

lemma validateVolumeInput_iff (payload : String) (v : Int) :
    validateVolumeInput payload = some v ↔
      specIntegerVal payload = some v ∧ 0 ≤ v ∧ v ≤ 100 := by
  unfold validateVolumeInput goAtoi MinVolume MaxVolume
  cases h : specIntegerVal payload with
  | none => simp
  | some w => simp only; split_ifs <;> simp_all <;> omega

lemma validateBrightnessInput_iff (payload : String) (v : Int) :
    validateBrightnessInput payload = some v ↔
      specIntegerVal payload = some v ∧ 0 ≤ v ∧ v ≤ 100 := by
  unfold validateBrightnessInput goAtoi MinBrightness MaxBrightness
  cases h : specIntegerVal payload with
  | none => simp
  | some w => simp only; split_ifs <;> simp_all <;> omega

/-- C4: a volume or brightness payload is accepted exactly when it reads
as a decimal integer v with 0 ≤ v ≤ 100; the handlers make the setVolume
or setDisplayBrightness capability call exactly on the accepted value, so
a rejected payload makes no capability call. -/
theorem volume_brightness_validation_spec (payload : String) (v : Int) (pfx d : String) :
    (validateVolumeInput payload = some v ↔
      specIntegerVal payload = some v ∧ 0 ≤ v ∧ v ≤ 100) ∧
    (validateBrightnessInput payload = some v ↔
      specIntegerVal payload = some v ∧ 0 ≤ v ∧ v ≤ 100) ∧
    handleVolumeCommand pfx (pfx ++ "/command/volume") payload
      = (true, validateVolumeInput payload) ∧
    handleDisplayBrightnessCommand pfx [d]
        (pfx ++ "/command/display_" ++ d ++ "_brightness") payload
      = (true, Option.map (fun b => (d, b)) (validateBrightnessInput payload)) := by
  refine ⟨validateVolumeInput_iff payload v, validateBrightnessInput_iff payload v, ?_, ?_⟩
  · unfold handleVolumeCommand
    rw [if_pos rfl]
    cases validateVolumeInput payload <;> simp
  · unfold handleDisplayBrightnessCommand handleDisplayBrightnessLoop
    rw [if_pos rfl]
    cases validateBrightnessInput payload <;> simp

/-- C1 counterexample: the payload "1" is accepted by the mute and
keep-awake handlers (Go strconv.ParseBool accepts it as true), and the
capability call is made, contradicting the claim that only the exact
strings "true" and "false" are accepted. -/
theorem mute_keepawake_accepts_one :
    handleMuteCommand "mac2mqtt/host" ("mac2mqtt/host" ++ "/command/mute") "1"
      = (true, some true) ∧
    handleKeepAwakeCommand "mac2mqtt/host" ("mac2mqtt/host" ++ "/command/keepawake") "1"
      = (true, some true) :=
  ⟨rfl, rfl⟩

/-- C1 amended: a mute or keep-awake payload is accepted exactly when it
is one of the twelve strconv.ParseBool literals 1, t, T, true, TRUE,
True, 0, f, F, false, FALSE, False; the handlers make the capability call
exactly on the parsed boolean, so a rejected payload makes no
setMute, commandKeepAwake or commandAllowSleep call. -/
theorem mute_keepawake_validation_spec (pfx payload : String) :
    handleMuteCommand pfx (pfx ++ "/command/mute") payload
      = (true, validateMuteInput payload) ∧
    handleKeepAwakeCommand pfx (pfx ++ "/command/keepawake") payload
      = (true, validateKeepAwakeInput payload) ∧
    (validateMuteInput payload ≠ none ↔ payload ∈ goBoolTokens) := by
  refine ⟨?_, ?_, ?_⟩
  · unfold handleMuteCommand
    rw [if_pos rfl]
    cases validateMuteInput payload <;> simp
  · unfold handleKeepAwakeCommand
    rw [if_pos rfl]
    cases validateKeepAwakeInput payload <;> simp
  · unfold validateMuteInput goParseBool goBoolTokens
    split_ifs <;> simp_all <;> tauto

lemma goWhitespaceChar_shortcutChar (c : Char) (h : goWhitespaceChar c = true) :
    shortcutChar c = true := by
  unfold goWhitespaceChar at h
  simp only [Bool.or_eq_true, beq_iff_eq, or_assoc] at h
  rcases h with rfl | rfl | rfl | rfl | rfl <;> decide

/-- C10: a non-empty all-whitespace payload passes validateShortcutInput
(every whitespace character is in the allowed regex class), so the
shortcut handler invokes the run-shortcut capability with the
whitespace-only shortcut name. -/
theorem shortcut_whitespace_accepted (pfx payload : String)
    (h1 : payload ≠ "") (h2 : payload.data.all goWhitespaceChar = true) :
    handleShortcutCommand pfx (pfx ++ "/command/runshortcut") payload
      = (true, some payload) := by
  have hall : payload.data.all shortcutChar = true := by
    rw [List.all_eq_true] at h2 ⊢
    intro c hc
    exact goWhitespaceChar_shortcutChar c (h2 c hc)
  unfold handleShortcutCommand validateShortcutInput
  rw [if_pos rfl, if_neg h1, hall]
  simp

/-- C10 witness: the single-space payload is accepted and forwarded. -/
theorem shortcut_whitespace_accepted_witness :
    handleShortcutCommand "mac2mqtt/host" ("mac2mqtt/host" ++ "/command/runshortcut") " "
      = (true, some " ") :=
  shortcut_whitespace_accepted "mac2mqtt/host" " " (by decide) (by decide)

/-! ## Media stream merge (src/mac2mqtt.go lines 855 to 948)

A stream event is a JSON object; processMediaStreamUpdate takes the value
of its "payload" key (an object, modelled as an association list with the
unique keys of a Go map) and merges it field by field into the current
MediaInfo, then forces the state to idle whenever the payload carries
playing = false. The publishes of the merged snapshot do not change the
state and are omitted here. -/

/-- A JSON value of a media stream payload field. -/
inductive JValue where
  | jstr (s : String)
  | jnum (q : ℚ)
  | jbool (b : Bool)
  | jnull
deriving DecidableEq

/-- The Go int(f) conversion of a float64, truncation toward zero. -/
def goTrunc (q : ℚ) : Int :=
  q.num / (q.den : Int)

/-- The merged playback state record (struct MediaInfo). -/
structure MediaInfo where
  Title : String
  Artist : String
  Album : String
  AppName : String
  AppBundleID : String
  State : String
  Duration : Int
  Position : Int
deriving DecidableEq

/-- One iteration of the merge loop of processMediaStreamUpdate: the
switch on the payload key k with value v, each case guarded by the Go
type assertion on the value (a failed assertion leaves the record
unchanged, exactly as the source). -/
def mergeEntry (m : MediaInfo) (k : String) (v : JValue) : MediaInfo :=
  match v with
  | .jstr s =>
    if k = "title" then { m with Title := s }
    else if k = "artist" then { m with Artist := s }
    else if k = "album" then { m with Album := s }
    else if k = "appName" then { m with AppName := s }
    else if k = "bundleIdentifier" then { m with AppName := s }
    else m
  | .jbool b =>
    if k = "playing" then { m with State := if b then "playing" else "paused" }
    else m
  | .jnum f =>
    if k = "duration" then { m with Duration := goTrunc f }
    else if k = "durationMicros" then { m with Duration := goTrunc (f / 1000000) }
    else if k = "totalTime" then { m with Duration := goTrunc f }
    else if k = "totalDuration" then { m with Duration := goTrunc f }
    else if k = "elapsedTime" then { m with Position := goTrunc f }
    else if k = "position" then { m with Position := goTrunc f }
    else if k = "positionMicros" then { m with Position := goTrunc (f / 1000000) }
    else m
  | .jnull => m

/-- The body of the for loop over the payload entries. -/
def mergeLoopStep (m : MediaInfo) (e : String × JValue) : MediaInfo :=
  mergeEntry m e.1 e.2

/-- Go map access payload[k] on the association list model of the map. -/
def goMapGet (k : String) : List (String × JValue) → Option JValue
  | [] => none
  | (k2, v) :: rest => if k = k2 then some v else goMapGet k rest

/-- The merge of one payload: the loop over its entries, then the final
check that forces State to idle when the payload has playing = false. -/
def mergeMediaPayload (m : MediaInfo) (payload : List (String × JValue)) : MediaInfo :=
  let merged := payload.foldl mergeLoopStep m
  match goMapGet "playing" payload with
  | some (.jbool false) => { merged with State := "idle" }
  | _ => merged

/-- A stream event: the payload object of the event, none when the event
has no object under its "payload" key. -/
structure MediaEvent where
  payloadFields : Option (List (String × JValue))
deriving DecidableEq

/-- processMediaStreamUpdate: an event without a payload object is
skipped, otherwise its payload is merged into the current state. -/
def processMediaStreamUpdate (m : MediaInfo) (ev : MediaEvent) : MediaInfo :=
  match ev.payloadFields with
  | none => m
  | some p => mergeMediaPayload m p

/-! ## Theorems: media stream claims -/

lemma mergeEntry_State_of_ne (m : MediaInfo) (k : String) (v : JValue)
    (h : k ≠ "playing") : (mergeEntry m k v).State = m.State := by
  cases v with
  | jstr s => simp only [mergeEntry]; split_ifs <;> rfl
  | jbool b =>
    simp only [mergeEntry]
    rw [if_neg h]
  | jnum f => simp only [mergeEntry]; split_ifs <;> rfl
  | jnull => rfl

lemma mergeEntry_playing (m : MediaInfo) (b : Bool) :
    (mergeEntry m "playing" (JValue.jbool b)).State
      = (if b then "playing" else "paused") := by
  simp [mergeEntry]

lemma foldl_mergeLoopStep_State_no_playing (p : List (String × JValue)) :
    ∀ m : MediaInfo, (∀ e ∈ p, e.1 ≠ "playing") →
      (p.foldl mergeLoopStep m).State = m.State := by
  induction p with
  | nil => intro m _; rfl
  | cons e rest ih =>
    intro m h
    rw [List.foldl_cons, ih (mergeLoopStep m e) (fun x hx => h x (List.mem_cons_of_mem e hx))]
    exact mergeEntry_State_of_ne m e.1 e.2 (h e (List.mem_cons_self e rest))

lemma foldl_mergeLoopStep_State_playing (p : List (String × JValue)) (b : Bool) :
    ∀ m : MediaInfo, (p.map Prod.fst).Nodup →
      goMapGet "playing" p = some (.jbool b) →
      (p.foldl mergeLoopStep m).State = (if b then "playing" else "paused") := by
  induction p with
  | nil => intro m _ hl; simp [goMapGet] at hl
  | cons e rest ih =>
    intro m hnd hl
    obtain ⟨k, v⟩ := e
    rw [List.map_cons, List.nodup_cons] at hnd
    unfold goMapGet at hl
    by_cases hk : "playing" = k
    · subst hk
      rw [if_pos rfl] at hl
      injection hl with hv
      subst hv
      rw [List.foldl_cons]
      rw [foldl_mergeLoopStep_State_no_playing rest (mergeLoopStep m ("playing", JValue.jbool b))
        (fun x hx => by
          intro hx1
          apply hnd.1
          rw [← hx1]
          exact List.mem_map.mpr ⟨x, hx, rfl⟩)]
      exact mergeEntry_playing m b
    · rw [if_neg hk] at hl
      rw [List.foldl_cons, ih (mergeLoopStep m (k, v)) hnd.2 hl]

/-- C2 counterexample: an event whose payload is
playing = false together with title = "X" leaves the merged state "idle",
not "paused": the final idle check of processMediaStreamUpdate fires on
every playing = false payload, whatever other fields the event carries. -/
theorem playing_false_gives_idle_not_paused :
    (processMediaStreamUpdate
        ⟨"t", "a", "al", "ap", "b", "playing", 0, 0⟩
        ⟨some [("playing", .jbool false), ("title", .jstr "X")]⟩).State = "idle" ∧
    (processMediaStreamUpdate
        ⟨"t", "a", "al", "ap", "b", "playing", 0, 0⟩
        ⟨some [("playing", .jbool false), ("title", .jstr "X")]⟩).State ≠ "paused" := by
  constructor <;> decide

/-- C2 amended: for every media stream event whose payload contains a
boolean playing field, the merged State is "playing" when the boolean is
true and "idle" when it is false, regardless of the other fields of the
event; the "paused" value written by the merge loop is always overridden
by the final idle check. -/
theorem playing_forces_state (old : MediaInfo) (p : List (String × JValue)) (b : Bool)
    (hnd : (p.map Prod.fst).Nodup)
    (hp : goMapGet "playing" p = some (.jbool b)) :
    (processMediaStreamUpdate old ⟨some p⟩).State = (if b then "playing" else "idle") := by
  unfold processMediaStreamUpdate mergeMediaPayload
  simp only
  rw [hp]
  cases b with
  | false => simp
  | true => simp [foldl_mergeLoopStep_State_playing p true old hnd hp]

/-- C2 amended witness: a payload with playing = true merges to the
"playing" state. -/
theorem playing_forces_state_witness :
    (processMediaStreamUpdate ⟨"t", "a", "al", "ap", "b", "idle", 0, 0⟩
        ⟨some [("playing", .jbool true)]⟩).State = (if true then "playing" else "idle") :=
  playing_forces_state ⟨"t", "a", "al", "ap", "b", "idle", 0, 0⟩
    [("playing", .jbool true)] true (by decide) (by decide)

/-- C6: an event whose payload contains only title = "X" sets Title to
"X" and leaves every other field of the merged state unchanged: an absent
field means unchanged, not cleared. -/
theorem title_only_merge_frame (old : MediaInfo) (X : String) :
    processMediaStreamUpdate old ⟨some [("title", .jstr X)]⟩ = { old with Title := X } := by
  rfl

/-! ## CPU usage (src/mac2mqtt.go lines 1565 to 1606)

The gosigar counters are uint64 values; the deltas and their sum are
computed in uint64 arithmetic, modelled as Nat arithmetic mod 2 ^ 64.
The float64 percentages are modelled as rationals. -/

/-- Go uint64 subtraction a - b, wrapping mod 2 ^ 64. -/
def sub64 (a b : Nat) : Nat :=
  (a % 2 ^ 64 + (2 ^ 64 - b % 2 ^ 64)) % 2 ^ 64

/-- Go uint64 addition a + b, wrapping mod 2 ^ 64. -/
def add64 (a b : Nat) : Nat :=
  (a + b) % 2 ^ 64

/-- The cumulative CPU tick counters of one sigar.Cpu sample. -/
structure Cpu where
  user : Nat
  sys : Nat
  idle : Nat
  wait : Nat
  nice : Nat
  irq : Nat
  softIrq : Nat
  stolen : Nat
deriving DecidableEq

/-- The computed usage percentages (struct CPUUsage, float64 fields). -/
structure CPUUsage where
  UsedPercent : ℚ
  FreePercent : ℚ
deriving DecidableEq

/-- idleDelta of getCPUUsage. -/
def cpuIdleDelta (last cur : Cpu) : Nat :=
  sub64 cur.idle last.idle

/-- totalDelta of getCPUUsage: the left-to-right uint64 sum of the eight
per-counter deltas. -/
def cpuTotalDelta (last cur : Cpu) : Nat :=
  add64 (add64 (add64 (add64 (add64 (add64 (add64
    (sub64 cur.user last.user) (sub64 cur.sys last.sys))
    (cpuIdleDelta last cur)) (sub64 cur.wait last.wait))
    (sub64 cur.nice last.nice)) (sub64 cur.irq last.irq))
    (sub64 cur.softIrq last.softIrq)) (sub64 cur.stolen last.stolen)

/-- getCPUUsage: the usage computed from the previous stored sample and
the current sample, together with the new stored sample (the function
stores cur into app.lastCPU before returning). A zero total delta gives
0 used and 100 free without any division; otherwise the idle share of
the total delta is converted to percentages. -/
def getCPUUsage (last cur : Cpu) : CPUUsage × Cpu :=
  let total := cpuTotalDelta last cur
  if total = 0 then (⟨0, 100⟩, cur)
  else
    let idlePercent : ℚ := (cpuIdleDelta last cur : ℚ) / (total : ℚ) * 100
    (⟨100 - idlePercent, idlePercent⟩, cur)

/-! ## Theorems: CPU usage claim -/

lemma sub64_self (a : Nat) : sub64 a a = 0 := by
  unfold sub64
  have h : a % 2 ^ 64 ≤ 2 ^ 64 := le_of_lt (Nat.mod_lt _ (by norm_num))
  rw [Nat.add_sub_cancel' h, Nat.mod_self]

/-- C5: when the two consecutive samples are identical (zero total
delta), getCPUUsage reports 0 used and 100 free with no division at all;
with a nonzero total delta it reports exactly
100 * (1 - idleDelta / totalDelta) used. Divisions happen only under the
nonzero guard, so no division by zero and no NaN can arise. -/
theorem getCPUUsage_spec (last cur : Cpu) :
    (last = cur → (getCPUUsage last cur).1 = ⟨0, 100⟩) ∧
    (cpuTotalDelta last cur ≠ 0 →
      (getCPUUsage last cur).1.UsedPercent
        = 100 * (1 - (cpuIdleDelta last cur : ℚ) / (cpuTotalDelta last cur : ℚ))) := by
  constructor
  · intro h
    subst h
    have htot : cpuTotalDelta last last = 0 := by
      unfold cpuTotalDelta cpuIdleDelta
      simp [sub64_self, add64]
    unfold getCPUUsage
    rw [htot]
    rfl
  · intro h
    unfold getCPUUsage
    rw [if_neg h]
    show (100 : ℚ) - (cpuIdleDelta last cur : ℚ) / (cpuTotalDelta last cur : ℚ) * 100 = _
    ring

/-- A concrete pair of identical samples. -/
def cpuSampleA : Cpu := ⟨100, 50, 200, 10, 5, 3, 2, 1⟩

/-- A later sample with advanced counters. -/
def cpuSampleB : Cpu := ⟨150, 60, 300, 10, 5, 3, 2, 1⟩

/-- C5 witness: identical samples give 0 used and 100 free; the advanced
sample gives the exact formula value. -/
theorem getCPUUsage_spec_witness :
    (getCPUUsage cpuSampleA cpuSampleA).1 = ⟨0, 100⟩ ∧
    (getCPUUsage cpuSampleA cpuSampleB).1.UsedPercent
      = 100 * (1 - (cpuIdleDelta cpuSampleA cpuSampleB : ℚ) / (cpuTotalDelta cpuSampleA cpuSampleB : ℚ)) :=
  ⟨(getCPUUsage_spec cpuSampleA cpuSampleA).1 rfl,
   (getCPUUsage_spec cpuSampleA cpuSampleB).2 (by decide)⟩

/-! ## MQTT connect cycle with retry (src/mac2mqtt.go lines 1187 to 1273)

getMQTTClientWithRetry takes the retry count; the environment of one
cycle is modelled by two functions of the attempt index: whether the
reachability probe succeeds and whether the broker handshake succeeds
with the given transport (ssl true = encrypted). The outcome records the
error message returned to the caller (none on success), the final
persistent app.config.SSL value, and how many encrypted-to-plain
fallbacks the cycle performed. -/

/-- The outcome of one connect cycle. -/
structure RetryOutcome where
  errMsg : Option String
  finalSSL : Bool
  fallbacks : Nat
deriving DecidableEq

/-- getMQTTClientWithRetry: guard against exceeding MaxRetryAttempts,
fail fast when the broker is unreachable, try the handshake with the
configured transport, and on an encrypted failure persistently flip
app.config.SSL to false and recurse with retryCount + 1. -/
def getMQTTClientWithRetry (connectOk : Nat → Bool → Bool) (reachable : Nat → Bool)
    (ssl : Bool) (retryCount : Nat) : RetryOutcome :=
  if h : MaxRetryAttempts < retryCount then
    ⟨some "failed to connect to MQTT broker after multiple attempts", ssl, 0⟩
  else if reachable retryCount = false then
    ⟨some "MQTT broker not reachable", ssl, 0⟩
  else if connectOk retryCount ssl then
    ⟨none, ssl, 0⟩
  else if ssl then
    let r := getMQTTClientWithRetry connectOk reachable false (retryCount + 1)
    ⟨r.errMsg, r.finalSSL, r.fallbacks + 1⟩
  else
    ⟨some "failed to connect to MQTT broker", ssl, 0⟩
termination_by MaxRetryAttempts + 2 - retryCount
decreasing_by
  unfold MaxRetryAttempts at h ⊢
  omega

/-- getMQTTClient: every connect cycle enters the retry function with the
retry counter at zero. -/
def getMQTTClient (connectOk : Nat → Bool → Bool) (reachable : Nat → Bool)
    (ssl : Bool) : RetryOutcome :=
  getMQTTClientWithRetry connectOk reachable ssl 0

/-! ## Theorems: connect retry claim -/

lemma getMQTTClientWithRetry_fallbacks_plain (connectOk : Nat → Bool → Bool)
    (reachable : Nat → Bool) (retryCount : Nat) :
    (getMQTTClientWithRetry connectOk reachable false retryCount).fallbacks = 0 := by
  unfold getMQTTClientWithRetry
  split_ifs <;> first | rfl | contradiction

/-- C3: one connect cycle performs at most one encrypted-to-plain
fallback whatever the environment does (after the single fallback the
persistent transport choice is plain, so the fallback branch can never
run again); the cycle always enters with the retry counter reset to
zero (getMQTTClient); an encrypted failure followed by a plain success
returns success with exactly one fallback; and exhausting both attempts
returns a single error value to the caller rather than crashing. -/
theorem getMQTTClientWithRetry_spec (connectOk : Nat → Bool → Bool)
    (reachable : Nat → Bool) (ssl : Bool) :
    (∀ retryCount, (getMQTTClientWithRetry connectOk reachable ssl retryCount).fallbacks ≤ 1) ∧
    getMQTTClient connectOk reachable ssl = getMQTTClientWithRetry connectOk reachable ssl 0 ∧
    (reachable 0 = true → connectOk 0 true = false → connectOk 1 false = true →
      reachable 1 = true → getMQTTClient connectOk reachable true = ⟨none, false, 1⟩) ∧
    (reachable 0 = true → reachable 1 = true →
      connectOk 0 true = false → connectOk 1 false = false →
      getMQTTClient connectOk reachable true
        = ⟨some "failed to connect to MQTT broker", false, 1⟩) := by
  refine ⟨?_, rfl, ?_, ?_⟩
  · intro retryCount
    cases ssl with
    | false => rw [getMQTTClientWithRetry_fallbacks_plain]; omega
    | true =>
      unfold getMQTTClientWithRetry
      split_ifs <;>
        simp [getMQTTClientWithRetry_fallbacks_plain]
  · intro h0 hc0 hc1 h1
    unfold getMQTTClient getMQTTClientWithRetry
    rw [dif_neg (by unfold MaxRetryAttempts; omega), if_neg (by rw [h0]; simp), if_neg (by rw [hc0]; simp)]
    rw [if_pos rfl]
    unfold getMQTTClientWithRetry
    rw [dif_neg (by unfold MaxRetryAttempts; omega), if_neg (by rw [h1]; simp), if_pos hc1]
  · intro h0 h1 hc0 hc1
    unfold getMQTTClient getMQTTClientWithRetry
    rw [dif_neg (by unfold MaxRetryAttempts; omega), if_neg (by rw [h0]; simp), if_neg (by rw [hc0]; simp)]
    rw [if_pos rfl]
    unfold getMQTTClientWithRetry
    rw [dif_neg (by unfold MaxRetryAttempts; omega), if_neg (by rw [h1]; simp), if_neg (by rw [hc1]; simp)]
    rfl

/-- An environment where the encrypted attempt fails and the plain
fallback succeeds. -/
def connectOkFallback : Nat → Bool → Bool := fun n _ => decide (n = 1)

/-- An environment where every handshake fails. -/
def connectOkNever : Nat → Bool → Bool := fun _ _ => false

/-- An always-reachable broker. -/
def reachableAlways : Nat → Bool := fun _ => true

/-- C3 witness: with the fallback environment the cycle succeeds after
exactly one fallback; with the failing environment it returns the single
error outcome; and its fallback count stays at most one. -/
theorem getMQTTClientWithRetry_spec_witness :
    (getMQTTClientWithRetry connectOkFallback reachableAlways true 0).fallbacks ≤ 1 ∧
    getMQTTClient connectOkFallback reachableAlways true = ⟨none, false, 1⟩ ∧
    getMQTTClient connectOkNever reachableAlways true
      = ⟨some "failed to connect to MQTT broker", false, 1⟩ :=
  ⟨(getMQTTClientWithRetry_spec connectOkFallback reachableAlways true).1 0,
   (getMQTTClientWithRetry_spec connectOkFallback reachableAlways true).2.2.1 rfl rfl rfl rfl,
   (getMQTTClientWithRetry_spec connectOkNever reachableAlways true).2.2.2 rfl rfl rfl rfl⟩

/-! ## Telemetry tick gating (src/mac2mqtt.go lines 2282 to 2314)

The three telemetry tickers of the Run event loop each check
client.IsConnected() and either run their fixed sequence of snapshot
update calls or do nothing at all: the loop keeps no queue of pending
publishes and a disconnected tick returns to the select without error. -/

/-- The snapshot update calls a tick can make; each one reads current
state from the Telemetry Source and publishes it. -/
inductive TelemetryAction where
  | updVolume
  | updMute
  | updMediaDevices
  | pubAliveOnline
  | updBattery
  | updDiskUsage
  | updCPUUsage
  | updMemoryUsage
  | updUptime
  | updPublicIP
  | updCaffeinateStatus
  | updDisplayBrightness
deriving DecidableEq

/-- The three periodic telemetry tickers of the Run loop. -/
inductive TickKind where
  | volumeTick
  | batteryTick
  | awakeTick
deriving DecidableEq

/-- The calls one tick makes, given the current connection state: the
exact call sequence of the corresponding select branch when connected,
nothing when not. -/
def tickActions (k : TickKind) (connected : Bool) : List TelemetryAction :=
  match k with
  | .volumeTick =>
    if connected then
      [.updVolume, .updMute, .updMediaDevices, .pubAliveOnline]
    else []
  | .batteryTick =>
    if connected then
      [.updBattery, .updDiskUsage, .updCPUUsage, .updMemoryUsage, .updUptime, .updPublicIP]
    else []
  | .awakeTick =>
    if connected then
      [.updCaffeinateStatus, .updDisplayBrightness]
    else []

/-- The calls a whole history of ticks makes, in order; the loop carries
no other publish state from tick to tick. -/
def runTicks : List (TickKind × Bool) → List TelemetryAction
  | [] => []
  | t :: rest => tickActions t.1 t.2 ++ runTicks rest

/-! ## Theorems: telemetry tick claim -/

lemma runTicks_append (a b : List (TickKind × Bool)) :
    runTicks (a ++ b) = runTicks a ++ runTicks b := by
  induction a with
  | nil => rfl
  | cons t rest ih => simp [runTicks, ih]

/-- C7: a disconnected tick performs no calls at all, and appending a
connected tick to any history appends exactly that tick's full snapshot
call sequence, while appending a disconnected tick appends nothing: the
disconnected ticks queue no backlog, and the first connected tick after
reconnection publishes the same current-snapshot sequence regardless of
how many ticks were skipped. -/
theorem telemetry_tick_gating (k : TickKind) (hist : List (TickKind × Bool)) :
    tickActions k false = [] ∧
    tickActions k true ≠ [] ∧
    runTicks (hist ++ [(k, true)]) = runTicks hist ++ tickActions k true ∧
    runTicks (hist ++ [(k, false)]) = runTicks hist := by
  refine ⟨?_, ?_, ?_, ?_⟩
  · cases k <;> rfl
  · cases k <;> simp [tickActions]
  · rw [runTicks_append]; simp [runTicks]
  · rw [runTicks_append]; simp [runTicks]; cases k <;> rfl

/-! ## User activity monitor (src/mac2mqtt.go lines 950 to 1074)

The state of the monitor: the published activity string, whether the
activityTimer handle is non-nil, and how many armed debounce timers are
pending (armed and neither fired nor stopped). The loop also keeps
lastIdleTime, initialised to -1. Publishes and timer operations are
recorded as actions. -/

/-- An observable action of the activity monitor. -/
inductive ActAction where
  | pubActivity (s : String)
  | pubIdleSeconds (n : Int)
  | stopTimer
  | armTimer
deriving DecidableEq

/-- The activity state guarded by activityMutex. -/
structure ActState where
  state : String
  hasHandle : Bool
  pending : Nat
deriving DecidableEq

/-- setUserActivityState: under the lock, write and publish the new
state only when it differs; the publish happens only when connected. -/
def setUserActivityState (connected : Bool) (newState : String) (a : ActState) :
    ActState × List ActAction :=
  if a.state ≠ newState then
    (⟨newState, a.hasHandle, a.pending⟩,
      if connected then [ActAction.pubActivity newState] else [])
  else (a, [])

/-- resetActivityTimer: under the lock, force the state to active
(publishing only on an actual change while connected), stop the previous
timer if a handle exists, and arm a fresh debounce timer. -/
def resetActivityTimer (connected : Bool) (a : ActState) : ActState × List ActAction :=
  let pubs := if a.state ≠ "active" then
      (if connected then [ActAction.pubActivity "active"] else []) else []
  let stops := if a.hasHandle then [ActAction.stopTimer] else []
  let newPending := (if a.hasHandle then a.pending - 1 else a.pending) + 1
  (⟨"active", true, newPending⟩, pubs ++ stops ++ [ActAction.armTimer])

/-- The expiry callback of the debounce timer: the pending timer fires
(leaving the count) and sets the state to inactive. -/
def timerFire (connected : Bool) (a : ActState) : ActState × List ActAction :=
  setUserActivityState connected "inactive" ⟨a.state, a.hasHandle, a.pending - 1⟩

/-- The monitor loop state: the activity state plus lastIdleTime. -/
structure MonitorState where
  act : ActState
  lastIdle : Int
deriving DecidableEq

/-- One 500ms sampling tick of startUserActivityMonitoring: skip when
not connected or when the idle read fails; otherwise trigger the active
transition exactly when the sample decreased or is below the 2 second
floor, store the sample and publish the raw idle seconds. -/
def monitorStep (connected : Bool) (idleRead : Option Int) (m : MonitorState) :
    MonitorState × List ActAction :=
  match connected, idleRead with
  | false, _ => (m, [])
  | true, none => (m, [])
  | true, some idle =>
    if idle < m.lastIdle ∨ idle < 2 then
      let r := resetActivityTimer true m.act
      (⟨r.1, idle⟩, r.2 ++ [ActAction.pubIdleSeconds idle])
    else
      (⟨m.act, idle⟩, [ActAction.pubIdleSeconds idle])

/-- An event in the life of the activity state: a sampling tick or a
debounce timer expiry. -/
inductive ActEvent where
  | sample (connected : Bool) (idleRead : Option Int)
  | fire (connected : Bool)

/-- The state reached after one event. -/
def actStep (m : MonitorState) : ActEvent → MonitorState
  | .sample c i => (monitorStep c i m).1
  | .fire c => ⟨(timerFire c m.act).1, m.lastIdle⟩

/-- The state reached after a sequence of events. -/
def actRun (m : MonitorState) : List ActEvent → MonitorState
  | [] => m
  | e :: es => actRun (actStep m e) es

/-- The initial monitor state: inactive, no timer handle, no pending
timer, lastIdleTime -1. -/
def initialMonitorState : MonitorState :=
  ⟨⟨"inactive", false, 0⟩, -1⟩

/-! ## Theorems: activity monitor claims -/

/-- C8: on a connected tick with a successful idle read, the debounce
timer is rearmed exactly when the sample is below the previous one or
below the 2 second floor; the active state is published exactly when
that condition holds and the state was not already active; and the
stored state afterwards is active exactly under the condition, otherwise
unchanged. -/
theorem activity_transition_spec (idle : Int) (m : MonitorState) :
    (ActAction.armTimer ∈ (monitorStep true (some idle) m).2 ↔
      (idle < m.lastIdle ∨ idle < 2)) ∧
    (ActAction.pubActivity "active" ∈ (monitorStep true (some idle) m).2 ↔
      ((idle < m.lastIdle ∨ idle < 2) ∧ m.act.state ≠ "active")) ∧
    (monitorStep true (some idle) m).1.act.state
      = (if idle < m.lastIdle ∨ idle < 2 then "active" else m.act.state) := by
  by_cases h : idle < m.lastIdle ∨ idle < 2
  · refine ⟨?_, ?_, ?_⟩
    · simp [monitorStep, if_pos h, resetActivityTimer, h]
    · simp only [monitorStep, if_pos h, resetActivityTimer]
      by_cases hs : m.act.state = "active"
      · simp [hs, h]
      · simp [hs, h]
    · simp [monitorStep, if_pos h, resetActivityTimer]
  · refine ⟨?_, ?_, ?_⟩
    · simp [monitorStep, if_neg h, h]
    · simp [monitorStep, if_neg h, h]
    · simp [monitorStep, if_neg h, h]

/-- The lock-protected timer invariant. -/
def ActInv (m : MonitorState) : Prop :=
  m.act.pending ≤ 1 ∧ (m.act.hasHandle = false → m.act.pending = 0)

lemma actInv_resetActivityTimer (c : Bool) (a : ActState)
    (h1 : a.pending ≤ 1) (h2 : a.hasHandle = false → a.pending = 0) :
    (resetActivityTimer c a).1.pending ≤ 1 ∧
      ((resetActivityTimer c a).1.hasHandle = false → (resetActivityTimer c a).1.pending = 0) := by
  unfold resetActivityTimer
  simp only
  cases hh : a.hasHandle <;> simp [hh]
  · exact h2 hh
  · omega

lemma actInv_timerFire (c : Bool) (a : ActState)
    (h1 : a.pending ≤ 1) (h2 : a.hasHandle = false → a.pending = 0) :
    (timerFire c a).1.pending ≤ 1 ∧
      ((timerFire c a).1.hasHandle = false → (timerFire c a).1.pending = 0) := by
  unfold timerFire setUserActivityState
  split_ifs <;>
    exact ⟨by show a.pending - 1 ≤ 1; omega,
      fun hh => by show a.pending - 1 = 0; have h0 := h2 hh; omega⟩

lemma actInv_step (m : MonitorState) (e : ActEvent) (h : ActInv m) : ActInv (actStep m e) := by
  obtain ⟨h1, h2⟩ := h
  cases e with
  | sample c i =>
    unfold actStep monitorStep
    cases c with
    | false => exact ⟨h1, h2⟩
    | true =>
      cases i with
      | none => exact ⟨h1, h2⟩
      | some idle =>
        simp only
        split_ifs with hc
        · exact actInv_resetActivityTimer true m.act h1 h2
        · exact ⟨h1, h2⟩
  | fire c =>
    exact actInv_timerFire c m.act h1 h2

lemma actInv_run (evs : List ActEvent) :
    ∀ m : MonitorState, ActInv m → ActInv (actRun m evs) := by
  induction evs with
  | nil => intro m h; exact h
  | cons e es ih => intro m h; exact ih (actStep m e) (actInv_step m e h)

/-! ## Lock discipline around the activity state (src/mac2mqtt.go
lines 950 to 993 and line 226)

Each function touching userActivityState or activityTimer is transcribed
as the sequence of its lock operations and its guarded-variable accesses,
in source order (the deferred unlock runs at return; the RWMutex read
lock is modelled as lock). A trace is well locked when every access to
the guarded variables happens while the lock is held. -/

/-- A micro operation on the activity lock and its guarded variables. -/
inductive AOp where
  | lock
  | unlock
  | readState
  | writeState
  | readTimer
  | stopOp
  | armOp
deriving DecidableEq

/-- Whether every guarded access in the trace occurs at lock depth
above zero, scanning with the current depth. -/
def wellLockedAux (d : Nat) : List AOp → Bool
  | [] => true
  | AOp.lock :: rest => wellLockedAux (d + 1) rest
  | AOp.unlock :: rest => decide (0 < d) && wellLockedAux (d - 1) rest
  | _ :: rest => decide (0 < d) && wellLockedAux d rest

/-- A trace is well locked when the scan from depth zero succeeds. -/
def wellLocked (t : List AOp) : Bool :=
  wellLockedAux 0 t

/-- The trace of getUserActivityState: RLock, read, deferred RUnlock. -/
def getUserActivityStateTrace : List AOp :=
  [AOp.lock, AOp.readState, AOp.unlock]

/-- The trace of setUserActivityState: Lock, compare, write only when
the state changes, deferred Unlock. -/
def setUserActivityStateTrace (changes : Bool) : List AOp :=
  [AOp.lock, AOp.readState] ++ (if changes then [AOp.writeState] else []) ++ [AOp.unlock]

/-- The trace of resetActivityTimer: Lock, compare and write the state if
not already active, read the timer handle, stop it when non-nil, arm a
fresh timer, deferred Unlock. -/
def resetActivityTimerTrace (wasActive hadHandle : Bool) : List AOp :=
  [AOp.lock, AOp.readState] ++ (if wasActive then [] else [AOp.writeState]) ++
    [AOp.readTimer] ++ (if hadHandle then [AOp.stopOp] else []) ++ [AOp.armOp, AOp.unlock]

/-- The trace of the userActivityState initialisation write in
NewApplication (src/mac2mqtt.go line 226), which takes no lock. -/
def newApplicationActivityTrace : List AOp :=
  [AOp.writeState]

/-! ## Theorems: activity lock and timer claims -/

/-- C9 counterexample: the initialisation write of the activity state in
NewApplication happens with no lock held, so it is not the case that the
activity state is only written while holding the activity lock. -/
theorem newApplication_writes_state_unlocked :
    wellLocked newApplicationActivityTrace = false := by
  decide

/-- C9 amended: every access to the activity state and the timer handle
in the accessor functions and in the timer rearm path happens under the
activity lock (the one exception being the initialisation write in the
constructor, before any concurrent access exists); and every rearm stops
the previously armed timer before arming a new one, so that from the
initial state any sequence of sampling ticks and timer expiries leaves
at most one debounce timer pending. -/
theorem activity_lock_and_timer_spec (changes wasActive hadHandle : Bool)
    (evs : List ActEvent) :
    wellLocked getUserActivityStateTrace = true ∧
    wellLocked (setUserActivityStateTrace changes) = true ∧
    wellLocked (resetActivityTimerTrace wasActive hadHandle) = true ∧
    (actRun initialMonitorState evs).act.pending ≤ 1 := by
  refine ⟨by decide, ?_, ?_, ?_⟩
  · cases changes <;> decide
  · cases wasActive <;> cases hadHandle <;> decide
  · exact (actInv_run evs initialMonitorState ⟨by decide, fun _ => rfl⟩).1
